import Mathlib

/-!
# Verification of the Bookito admin frontend RBAC subsystem

Shallow embedding of the permission-resolution, menu-filtering and
permission-matrix logic of the Bookito admin frontend, together with
proofs of the specification's testable properties.

The embedding follows the TypeScript sources:
* the permission context (types `SubMenuPermissions`, `SubMenuItem`,
  `MainMenu`, `PermissionsData` and the helpers `isAdmin`,
  `hasMenuAccess`, `getPermissions`, plus the `fetchPermissions`
  state transition);
* the static menu catalog `ALL_MENU_ITEMS` (icons, which are opaque
  UI nodes, are omitted — no logic inspects them);
* the sidebar's `filteredMenuItems` computation;
* the group-management `PermissionMatrix` helpers `toggle` and
  `toggleAll`;
* the plan-management `handleSave` validation, with the JavaScript
  `parseInt`/`parseFloat` numeric parsers modelled on the decimal
  fragment reachable through the form's number inputs.
-/

namespace Bookito

/-- Permission flags for a single submenu (`SubMenuPermissions`). -/
structure SubMenuPermissions where
  add : Bool
  change : Bool
  delete : Bool
deriving DecidableEq

/-- A submenu item with its permissions (`SubMenuItem`). -/
structure SubMenuItem where
  menu_name : String
  url : String
  permissions : SubMenuPermissions
deriving DecidableEq

/-- A main menu group containing submenus (`MainMenu`). -/
structure MainMenu where
  main_menu : String
  sub_menu : List SubMenuItem
deriving DecidableEq

/-- The role union type `"admin" | "user"`. -/
inductive Role where
  | admin
  | user
deriving DecidableEq

/-- Full permissions response from `/api/me/permissions` (`PermissionsData`). -/
structure PermissionsData where
  role : Role
  groupName : Option String
  groupId : Option String
  menus : List MainMenu
deriving DecidableEq

/-- Default "no permission" object (`NO_PERMISSIONS`). -/
def NO_PERMISSIONS : SubMenuPermissions :=
  { add := false, change := false, delete := false }

/-- `isAdmin`: `data?.role === "admin"`. -/
def isAdmin (data : Option PermissionsData) : Bool :=
  match data with
  | none => false
  | some d => d.role == Role.admin

/-- `hasMenuAccess(mainMenu, subMenu?)`.  The optional `subMenu` argument is
modelled as an `Option String`; the source's `if (!subMenu)` treats both an
omitted argument and the empty string as "no submenu given". -/
def hasMenuAccess (data : Option PermissionsData) (mainMenu : String)
    (subMenu : Option String) : Bool :=
  match data with
  | none => false
  | some d =>
    if isAdmin (some d) then true
    else
      match d.menus.find? (fun m => m.main_menu == mainMenu) with
      | none => false
      | some mainEntry =>
        match subMenu with
        | none => decide (0 < mainEntry.sub_menu.length)
        | some s =>
          if s == "" then decide (0 < mainEntry.sub_menu.length)
          else mainEntry.sub_menu.any (fun x => x.menu_name == s)

/-- `getPermissions(mainMenu, subMenu)`. -/
def getPermissions (data : Option PermissionsData) (mainMenu subMenu : String) :
    SubMenuPermissions :=
  match data with
  | none => NO_PERMISSIONS
  | some d =>
    if isAdmin (some d) then { add := true, change := true, delete := true }
    else
      match d.menus.find? (fun m => m.main_menu == mainMenu) with
      | none => NO_PERMISSIONS
      | some mainEntry =>
        match mainEntry.sub_menu.find? (fun s => s.menu_name == subMenu) with
        | none => NO_PERMISSIONS
        | some subEntry => subEntry.permissions

/-- The permission store's state: `data` and `isLoading`. -/
structure StoreState where
  data : Option PermissionsData
  isLoading : Bool
deriving DecidableEq

/-- Outcome of the credentialed fetch inside `fetchPermissions`:
a parsed success body, a non-ok response, or a thrown network error. -/
inductive FetchOutcome where
  | success (json : PermissionsData)
  | httpError
  | networkError
deriving DecidableEq

/-- The `fetchPermissions` flow as a state transition: it sets the loading
flag, resolves the request, stores the body on `res.ok`, stores `null` on a
non-ok response or a thrown error, and finally clears the loading flag. -/
def fetchPermissions (_s : StoreState) (r : FetchOutcome) : StoreState :=
  match r with
  | FetchOutcome.success json => { data := some json, isLoading := false }
  | FetchOutcome.httpError => { data := none, isLoading := false }
  | FetchOutcome.networkError => { data := none, isLoading := false }

/-- A sidebar sub-item in the menu catalog (`MenuSubItem`). -/
structure MenuSubItem where
  title : String
  url : String
deriving DecidableEq

/-- A main menu entry in the menu catalog (`MenuItem`).  The `icon` field of
the source is an opaque UI node never inspected by any logic and is omitted. -/
structure MenuItem where
  title : String
  items : List MenuSubItem
deriving DecidableEq

/-- The static master menu list `ALL_MENU_ITEMS` from `menu-config`. -/
def ALL_MENU_ITEMS : List MenuItem :=
  [ { title := "Dashboard",
      items := [ { title := "Overview", url := "dashboard" } ] },
    { title := "Properties",
      items := [ { title := "Property List", url := "properties" },
                 { title := "Property Settings", url := "property-settings" } ] },
    { title := "Subscriptions",
      items := [ { title := "Plans", url := "subscription-plans" },
                 { title := "Active Subscriptions", url := "active-subscriptions" } ] },
    { title := "Invoices",
      items := [ { title := "Invoice List", url := "invoices" },
                 { title := "Create Invoice", url := "create-invoice" } ] },
    { title := "Payments",
      items := [ { title := "Payment List", url := "payments" },
                 { title := "Payment History", url := "payment-history" } ] },
    { title := "Expenses",
      items := [ { title := "Expense List", url := "expenses" },
                 { title := "Expense Categories", url := "expense-categories" } ] },
    { title := "Sales",
      items := [ { title := "Sales List", url := "sales" },
                 { title := "Sales Reports", url := "sales-reports" } ] },
    { title := "Reports",
      items := [ { title := "Financial Reports", url := "financial-reports" },
                 { title := "Analytics", url := "analytics" } ] },
    { title := "Team",
      items := [ { title := "Users", url := "team-users" },
                 { title := "Groups", url := "team-groups" } ] },
    { title := "Settings",
      items := [ { title := "General", url := "settings-general" },
                 { title := "Account", url := "settings-account" } ] } ]

/-- A rendered sidebar sub-item (`{ title, url }` produced by the filter). -/
structure SidebarSubItem where
  title : String
  url : String
deriving DecidableEq

/-- A rendered sidebar entry produced by `filteredMenuItems` (the `icon`
field, an opaque UI node, is omitted). -/
structure SidebarItem where
  title : String
  url : String
  isActive : Bool
  items : List SidebarSubItem
deriving DecidableEq

/-- The sidebar transform applied to one catalog entry in the admin branch. -/
def adminSidebarItem (item : MenuItem) : SidebarItem :=
  { title := item.title
    url := "#"
    isActive := item.title == "Dashboard"
    items := item.items.map (fun sub => { title := sub.title, url := "#" ++ sub.url }) }

/-- The sidebar transform applied to one kept catalog entry in the
regular-user branch: sub-items are filtered by `hasMenuAccess` first. -/
def userSidebarItem (data : Option PermissionsData) (item : MenuItem) : SidebarItem :=
  { title := item.title
    url := "#"
    isActive := item.title == "Dashboard"
    items := (item.items.filter
        (fun sub => hasMenuAccess data item.title (some sub.title))).map
      (fun sub => { title := sub.title, url := "#" ++ sub.url }) }

/-- `AppSidebar.filteredMenuItems`: empty while loading; the whole catalog
for admin; otherwise the catalog filtered at both levels by `hasMenuAccess`,
dropping main menus that end up with zero sub-items. -/
def filteredMenuItems (data : Option PermissionsData) (isLoading : Bool) :
    List SidebarItem :=
  if isLoading then []
  else if isAdmin data then
    ALL_MENU_ITEMS.map adminSidebarItem
  else
    ((ALL_MENU_ITEMS.filter (fun item => hasMenuAccess data item.title none)).map
        (userSidebarItem data)).filter
      (fun item => decide (0 < item.items.length))

/-- One permission row of a group (`MenuPermissionData`). -/
structure MenuPermissionData where
  mainMenu : String
  subMenu : String
  url : String
  canAdd : Bool
  canChange : Bool
  canDelete : Bool
deriving DecidableEq

/-- The toggled checkbox column: one of `canAdd`, `canChange`, `canDelete`. -/
inductive PermField where
  | canAdd
  | canChange
  | canDelete
deriving DecidableEq

/-- `{ ...p, [field]: !p[field] }`: flip the named flag of a record. -/
def flipField (f : PermField) (p : MenuPermissionData) : MenuPermissionData :=
  match f with
  | PermField.canAdd => { p with canAdd := !p.canAdd }
  | PermField.canChange => { p with canChange := !p.canChange }
  | PermField.canDelete => { p with canDelete := !p.canDelete }

/-- The predicate `p.mainMenu === mainMenu && p.subMenu === subMenu`
used throughout the matrix component. -/
def permMatches (mainMenu subMenu : String) (p : MenuPermissionData) : Bool :=
  p.mainMenu == mainMenu && p.subMenu == subMenu

/-- The string key under which a record is stored in `permMap`: the
template literal `mainMenu + "|" + subMenu`.  Distinct pairs can collide on
this key when the names themselves contain `"|"`. -/
def permStringKey (p : MenuPermissionData) : String :=
  p.mainMenu ++ "|" ++ p.subMenu

/-- `permMap.get(key)`: the map is built by a forEach of `Map.set` keyed by
the concatenated string, so the LAST record whose string key equals `key`
wins — which on collision inputs need not be a record of the queried pair. -/
def permMapGet (permissions : List MenuPermissionData) (key : String) :
    Option MenuPermissionData :=
  (permissions.filter (fun p => permStringKey p == key)).getLast?

/-- The map callback of `toggle`'s update branch: flip the named flag on the
records matching the pair, leave every other record untouched. -/
def flipIf (mainMenu subMenu : String) (field : PermField)
    (p : MenuPermissionData) : MenuPermissionData :=
  if permMatches mainMenu subMenu p then flipField field p else p

/-- `PermissionMatrix.toggle(mainMenu, subMenu, url, field)`. -/
def toggle (permissions : List MenuPermissionData)
    (mainMenu subMenu url : String) (field : PermField) : List MenuPermissionData :=
  match permMapGet permissions (mainMenu ++ "|" ++ subMenu) with
  | some _ =>
    let updated := permissions.map (flipIf mainMenu subMenu field)
    match updated.find? (permMatches mainMenu subMenu) with
    | some target =>
      if !target.canAdd && !target.canChange && !target.canDelete then
        updated.filter (fun p => !permMatches mainMenu subMenu p)
      else updated
    | none => updated
  | none =>
    permissions ++
      [{ mainMenu := mainMenu, subMenu := subMenu, url := url
         canAdd := field == PermField.canAdd
         canChange := field == PermField.canChange
         canDelete := field == PermField.canDelete }]

/-- `PermissionMatrix.toggleAll(mainMenu, subMenu, url)`. -/
def toggleAll (permissions : List MenuPermissionData)
    (mainMenu subMenu url : String) : List MenuPermissionData :=
  let existing := permMapGet permissions (mainMenu ++ "|" ++ subMenu)
  let allChecked :=
    match existing with
    | some e => e.canAdd && e.canChange && e.canDelete
    | none => false
  if allChecked then
    permissions.filter (fun p => !permMatches mainMenu subMenu p)
  else
    (permissions.filter (fun p => !permMatches mainMenu subMenu p)) ++
      [{ mainMenu := mainMenu, subMenu := subMenu, url := url
         canAdd := true, canChange := true, canDelete := true }]

/-- Decimal value of a digit run, most significant digit first. -/
def digitsToNat (ds : List Char) : Nat :=
  ds.foldl (fun a c => a * 10 + (c.toNat - 48)) 0

/-- Leading-whitespace skip shared by the numeric parsers. -/
def skipSpaces (cs : List Char) : List Char :=
  cs.dropWhile (fun c => c == ' ' || c == '\t' || c == '\n' || c == '\r')

/-- Split an optional leading sign: returns (isNegative, rest). -/
def splitSign (cs : List Char) : Bool × List Char :=
  match cs with
  | '-' :: rest => (true, rest)
  | '+' :: rest => (false, rest)
  | rest => (false, rest)

/-- JavaScript `parseInt(s)` (radix unspecified) on its decimal fragment:
skip whitespace, take an optional sign, then the maximal leading run of
decimal digits; `none` models `NaN` (no digits).  The hexadecimal `0x` form
is not modelled: the plan form's number inputs can only hold decimal
floating-point syntax. -/
def jsParseIntChars (cs : List Char) : Option Int :=
  let signed := splitSign (skipSpaces cs)
  let ds := signed.2.takeWhile Char.isDigit
  if ds.isEmpty then none
  else if signed.1 then some (-(Int.ofNat (digitsToNat ds)))
  else some (Int.ofNat (digitsToNat ds))

/-- `parseInt` on a `String`. -/
def jsParseInt (s : String) : Option Int :=
  jsParseIntChars s.data

/-- The exact rational value of a parsed decimal literal
`sign intDigits . fracDigits e expo`. -/
def decPartsValue (neg : Bool) (intDs fracDs : List Char) (expo : Int) : Rat :=
  let n : Int := Int.ofNat (digitsToNat intDs * 10 ^ fracDs.length + digitsToNat fracDs)
  let n := if neg then -n else n
  match expo with
  | Int.ofNat k => mkRat (n * Int.ofNat (10 ^ k)) (10 ^ fracDs.length)
  | Int.negSucc k => mkRat n (10 ^ fracDs.length * 10 ^ (k + 1))

/-- Optional exponent part of a decimal literal: `e`/`E`, optional sign,
digits.  An exponent marker not followed by digits contributes nothing,
since `parseFloat` reads the longest valid literal prefix. -/
def parseExpoPart (cs : List Char) : Int :=
  match cs with
  | 'e' :: rest =>
    let signed := splitSign rest
    let ds := signed.2.takeWhile Char.isDigit
    if ds.isEmpty then 0
    else if signed.1 then -(Int.ofNat (digitsToNat ds))
    else Int.ofNat (digitsToNat ds)
  | 'E' :: rest =>
    let signed := splitSign rest
    let ds := signed.2.takeWhile Char.isDigit
    if ds.isEmpty then 0
    else if signed.1 then -(Int.ofNat (digitsToNat ds))
    else Int.ofNat (digitsToNat ds)
  | _ => 0

/-- JavaScript `parseFloat(s)`: the longest prefix that is a decimal
literal — sign, integer digits, optional fraction, optional exponent —
with `none` modelling `NaN`.  The `Infinity` form is not modelled: the
form's number inputs only produce finite decimal syntax. -/
def jsParseFloatChars (cs : List Char) : Option Rat :=
  let signed := splitSign (skipSpaces cs)
  let intDs := signed.2.takeWhile Char.isDigit
  let rest1 := signed.2.dropWhile Char.isDigit
  let fracDs :=
    match rest1 with
    | '.' :: r => r.takeWhile Char.isDigit
    | _ => []
  let rest2 :=
    match rest1 with
    | '.' :: r => r.dropWhile Char.isDigit
    | _ => rest1
  if intDs.isEmpty && fracDs.isEmpty then none
  else some (decPartsValue signed.1 intDs fracDs (parseExpoPart rest2))

/-- `parseFloat` on a `String`. -/
def jsParseFloat (s : String) : Option Rat :=
  jsParseFloatChars s.data

/-- The JSON body `{ fromRooms, toRooms, ratePerRoom }` sent by the plan
form's save action. -/
structure PlanRequestBody where
  fromRooms : Int
  toRooms : Int
  ratePerRoom : Rat
deriving DecidableEq

/-- `PlanManagement.handleSave` up to the request boundary: parse the three
form strings, run the three validation checks in order, and either stop with
the form-error message (no request is issued) or produce the request body. -/
def handleSave (formFromRooms formToRooms formRatePerRoom : String) :
    Except String PlanRequestBody :=
  let fromRooms := jsParseInt formFromRooms
  let toRooms := jsParseInt formToRooms
  let ratePerRoom := jsParseFloat formRatePerRoom
  match fromRooms with
  | none => Except.error "From rooms must be at least 1"
  | some fr =>
    if fr < 1 then Except.error "From rooms must be at least 1"
    else
      match toRooms with
      | none => Except.error "To rooms must be >= From rooms"
      | some tr =>
        if tr < fr then Except.error "To rooms must be >= From rooms"
        else
          match ratePerRoom with
          | none => Except.error "Rate per room must be a valid number >= 0"
          | some rp =>
            if rp < 0 then Except.error "Rate per room must be a valid number >= 0"
            else Except.ok { fromRooms := fr, toRooms := tr, ratePerRoom := rp }

/-! ## Helper lemmas about the permission resolver -/

/-- Under a non-admin role the boolean admin test is false. -/
lemma isAdmin_eq_false {d : PermissionsData} (h : d.role ≠ Role.admin) :
    isAdmin (some d) = false := by
  simp [isAdmin]
  cases hr : d.role with
  | admin => exact absurd hr h
  | user => simp

/-- Sample loaded permission data with an admin role. -/
def sampleAdminData : PermissionsData :=
  { role := Role.admin, groupName := none, groupId := none, menus := [] }

/-- Sample loaded permission data used in the spec's user scenario. -/
def sampleUserData : PermissionsData :=
  { role := Role.user, groupName := some "Staff", groupId := some "g1",
    menus := [ { main_menu := "Team",
                 sub_menu := [ { menu_name := "Users", url := "team-users",
                                 permissions := { add := true, change := false, delete := false } } ] } ] }

/-- C1: Admin override is universal — with loaded data whose role is
`admin`, `hasMenuAccess` returns true for every main-menu string, with or
without a submenu argument, and `getPermissions` returns all-true flags for
every string pair, regardless of the stored `menus`. -/
theorem admin_override_universal (d : PermissionsData) (h : d.role = Role.admin)
    (M S : String) :
    hasMenuAccess (some d) M none = true ∧
    hasMenuAccess (some d) M (some S) = true ∧
    getPermissions (some d) M S = { add := true, change := true, delete := true } := by
  refine ⟨?_, ?_, ?_⟩ <;> simp [hasMenuAccess, getPermissions, isAdmin, h]

/-- Witness for C1 at concrete data and a pair absent from its menus. -/
theorem admin_override_universal_witness :
    sampleAdminData.role = Role.admin ∧
    (hasMenuAccess (some sampleAdminData) "Team" none = true ∧
     hasMenuAccess (some sampleAdminData) "Team" (some "Groups") = true ∧
     getPermissions (some sampleAdminData) "Team" "Groups" =
       { add := true, change := true, delete := true }) :=
  ⟨rfl, admin_override_universal sampleAdminData rfl "Team" "Groups"⟩

/-- C7: after a failed `fetchPermissions` (non-ok response or network
error) the store holds `data = none` with the loading flag cleared, every
access check is false, every capability query is all-false, and the menu
filter yields the empty sequence. -/
theorem fetch_failure_no_access (s : StoreState) (r : FetchOutcome)
    (h : r = FetchOutcome.httpError ∨ r = FetchOutcome.networkError) :
    (fetchPermissions s r).data = none ∧
    (fetchPermissions s r).isLoading = false ∧
    (∀ M sub, hasMenuAccess (fetchPermissions s r).data M sub = false) ∧
    (∀ M S, getPermissions (fetchPermissions s r).data M S = NO_PERMISSIONS) ∧
    filteredMenuItems (fetchPermissions s r).data (fetchPermissions s r).isLoading = [] := by
  have hdata : (fetchPermissions s r).data = none := by
    rcases h with h | h <;> subst h <;> rfl
  have hload : (fetchPermissions s r).isLoading = false := by
    rcases h with h | h <;> subst h <;> rfl
  refine ⟨hdata, hload, ?_, ?_, ?_⟩
  · intro M sub
    rw [hdata]
    rfl
  · intro M S
    rw [hdata]
    rfl
  · rw [hdata, hload]
    decide

/-- Witness for C7 at a concrete prior state and a network error. -/
theorem fetch_failure_no_access_witness :
    (FetchOutcome.networkError = FetchOutcome.httpError ∨
     FetchOutcome.networkError = FetchOutcome.networkError) ∧
    ((fetchPermissions { data := some sampleUserData, isLoading := true }
        FetchOutcome.networkError).data = none ∧
     (fetchPermissions { data := some sampleUserData, isLoading := true }
        FetchOutcome.networkError).isLoading = false ∧
     (∀ M sub, hasMenuAccess (fetchPermissions { data := some sampleUserData, isLoading := true }
        FetchOutcome.networkError).data M sub = false) ∧
     (∀ M S, getPermissions (fetchPermissions { data := some sampleUserData, isLoading := true }
        FetchOutcome.networkError).data M S = NO_PERMISSIONS) ∧
     filteredMenuItems (fetchPermissions { data := some sampleUserData, isLoading := true }
        FetchOutcome.networkError).data
       (fetchPermissions { data := some sampleUserData, isLoading := true }
        FetchOutcome.networkError).isLoading = []) :=
  ⟨Or.inr rfl,
   fetch_failure_no_access { data := some sampleUserData, isLoading := true }
     FetchOutcome.networkError (Or.inr rfl)⟩

/-- Reduction of `hasMenuAccess` when the main menu is not found. -/
lemma hasMenuAccess_find_none (d : PermissionsData) (M : String) (sub : Option String)
    (h : d.role ≠ Role.admin)
    (hfind : d.menus.find? (fun m => m.main_menu == M) = none) :
    hasMenuAccess (some d) M sub = false := by
  simp [hasMenuAccess, isAdmin_eq_false h, hfind]

/-- Reduction of `hasMenuAccess` with the submenu argument omitted. -/
lemma hasMenuAccess_find_some_none (d : PermissionsData) (M : String)
    {me : MainMenu} (h : d.role ≠ Role.admin)
    (hfind : d.menus.find? (fun m => m.main_menu == M) = some me) :
    hasMenuAccess (some d) M none = decide (0 < me.sub_menu.length) := by
  simp [hasMenuAccess, isAdmin_eq_false h, hfind]

/-- Reduction of `hasMenuAccess` with a submenu argument given. -/
lemma hasMenuAccess_find_some_sub (d : PermissionsData) (M s : String)
    {me : MainMenu} (h : d.role ≠ Role.admin)
    (hfind : d.menus.find? (fun m => m.main_menu == M) = some me) :
    hasMenuAccess (some d) M (some s) =
      if s == "" then decide (0 < me.sub_menu.length)
      else me.sub_menu.any (fun x => x.menu_name == s) := by
  simp [hasMenuAccess, isAdmin_eq_false h, hfind]

/-- C6: the omitted-submenu form of `hasMenuAccess` is true iff some
submenu name is accessible under the main menu (or the role is admin); in
particular, for a non-admin role, a main menu found in the data with an
empty `sub_menu` list yields false. -/
theorem hasMenuAccess_omitted_iff (d : PermissionsData) (M : String) :
    (hasMenuAccess (some d) M none = true ↔
      ((∃ S, hasMenuAccess (some d) M (some S) = true) ∨ d.role = Role.admin)) ∧
    (d.role ≠ Role.admin →
      ∀ me, d.menus.find? (fun m => m.main_menu == M) = some me →
        me.sub_menu = [] → hasMenuAccess (some d) M none = false) := by
  constructor
  · by_cases hrole : d.role = Role.admin
    · constructor
      · intro _; exact Or.inr hrole
      · intro _; simp [hasMenuAccess, isAdmin, hrole]
    · constructor
      · intro hacc
        cases hfind : d.menus.find? (fun m => m.main_menu == M) with
        | none => rw [hasMenuAccess_find_none d M none hrole hfind] at hacc; exact absurd hacc (by simp)
        | some me =>
          rw [hasMenuAccess_find_some_none d M hrole hfind] at hacc
          cases hsub : me.sub_menu with
          | nil => rw [hsub] at hacc; simp at hacc
          | cons x xs =>
            refine Or.inl ⟨x.menu_name, ?_⟩
            rw [hasMenuAccess_find_some_sub d M x.menu_name hrole hfind]
            by_cases hx : x.menu_name == ""
            · simp [hx, hsub]
            · simp [hx, hsub, List.any_cons]
      · intro hor
        rcases hor with ⟨S, hS⟩ | hadm
        · cases hfind : d.menus.find? (fun m => m.main_menu == M) with
          | none => rw [hasMenuAccess_find_none d M (some S) hrole hfind] at hS; exact absurd hS (by simp)
          | some me =>
            rw [hasMenuAccess_find_some_sub d M S hrole hfind] at hS
            rw [hasMenuAccess_find_some_none d M hrole hfind]
            by_cases hSe : S == ""
            · rw [if_pos hSe] at hS; exact hS
            · rw [if_neg hSe] at hS
              rcases List.any_eq_true.mp hS with ⟨x, hx, _⟩
              simp
              exact List.length_pos.mpr (List.ne_nil_of_mem hx)
        · exact absurd hadm hrole
  · intro hrole me hfind hnil
    rw [hasMenuAccess_find_some_none d M hrole hfind, hnil]
    simp

/-- Sample non-admin data whose only main menu has an empty submenu list. -/
def emptyTeamData : PermissionsData :=
  { role := Role.user, groupName := none, groupId := none,
    menus := [ { main_menu := "Team", sub_menu := [] } ] }

/-- Witness for C6: the empty-submenu case evaluated at concrete data. -/
theorem hasMenuAccess_omitted_iff_witness :
    hasMenuAccess (some emptyTeamData) "Team" none = false :=
  (hasMenuAccess_omitted_iff emptyTeamData "Team").2 (by decide)
    { main_menu := "Team", sub_menu := [] } (by decide) rfl

/-! ## Plan form validation -/

/-- Unparseable or below-minimum From Rooms input stops `handleSave` at the
first check. -/
lemma handleSave_from_invalid (f t r : String)
    (h : jsParseInt f = none ∨ ∃ n, jsParseInt f = some n ∧ n < 1) :
    handleSave f t r = Except.error "From rooms must be at least 1" := by
  rcases h with h | ⟨n, h, hn⟩
  · simp [handleSave, h]
  · simp [handleSave, h]
    intro hcon
    exact absurd hn (by omega)

/-- Unparseable or too-small To Rooms input stops `handleSave` at the
second check. -/
lemma handleSave_to_invalid (f t r : String) (fr : Int)
    (hf : jsParseInt f = some fr) (h1 : 1 ≤ fr)
    (h : jsParseInt t = none ∨ ∃ n, jsParseInt t = some n ∧ n < fr) :
    handleSave f t r = Except.error "To rooms must be >= From rooms" := by
  rcases h with h | ⟨n, h, hn⟩
  · simp [handleSave, hf, h, not_lt.mpr h1]
  · simp [handleSave, hf, h, not_lt.mpr h1]
    intro hcon
    exact absurd hn (by omega)

/-- Unparseable or negative Rate per Room input stops `handleSave` at the
third check. -/
lemma handleSave_rate_invalid (f t r : String) (fr tr : Int)
    (hf : jsParseInt f = some fr) (h1 : 1 ≤ fr)
    (ht : jsParseInt t = some tr) (h2 : fr ≤ tr)
    (h : jsParseFloat r = none ∨ ∃ q, jsParseFloat r = some q ∧ q < 0) :
    handleSave f t r = Except.error "Rate per room must be a valid number >= 0" := by
  rcases h with h | ⟨q, h, hq⟩
  · simp [handleSave, hf, ht, h, not_lt.mpr h1, not_lt.mpr h2]
  · simp [handleSave, hf, ht, h, not_lt.mpr h1, not_lt.mpr h2]
    exact hq

/-- A successful `handleSave` submits exactly the three parsed values. -/
lemma handleSave_ok_fields (f t r : String) (body : PlanRequestBody)
    (h : handleSave f t r = Except.ok body) :
    jsParseInt f = some body.fromRooms ∧ jsParseInt t = some body.toRooms ∧
    jsParseFloat r = some body.ratePerRoom := by
  unfold handleSave at h
  cases hf : jsParseInt f with
  | none => rw [hf] at h; simp at h
  | some fr =>
    rw [hf] at h
    simp at h
    by_cases hfr : fr < 1
    · rw [if_pos hfr] at h; simp at h
    · rw [if_neg hfr] at h
      cases ht : jsParseInt t with
      | none => rw [ht] at h; simp at h
      | some tr =>
        rw [ht] at h
        simp at h
        by_cases htr : tr < fr
        · rw [if_pos htr] at h; simp at h
        · rw [if_neg htr] at h
          cases hr : jsParseFloat r with
          | none => rw [hr] at h; simp at h
          | some rp =>
            rw [hr] at h
            simp at h
            by_cases hrp : rp < 0
            · rw [if_pos hrp] at h; simp at h
            · rw [if_neg hrp] at h
              simp at h
              cases h
              refine ⟨?_, ?_, ?_⟩ <;> simp [hf, ht, hr]

/-- C8: `fromRooms=5, toRooms=3` is rejected with the exact message
"To rooms must be >= From rooms" and no request body is produced;
`fromRooms=1, toRooms=10, ratePerRoom=59.99` passes every check and yields
exactly the body `{fromRooms:1, toRooms:10, ratePerRoom:59.99}`; a
`fromRooms` below 1 or unparseable, and a negative or unparseable
`ratePerRoom`, are rejected before any request. -/
theorem plan_form_validation :
    handleSave "5" "3" "10" = Except.error "To rooms must be >= From rooms"
    ∧ (mkRat 5999 100 = (5999 : Rat)/100 ∧
       handleSave "1" "10" "59.99" =
         Except.ok { fromRooms := 1, toRooms := 10, ratePerRoom := mkRat 5999 100 })
    ∧ (∀ f t r : String, (jsParseInt f = none ∨ ∃ n, jsParseInt f = some n ∧ n < 1) →
        handleSave f t r = Except.error "From rooms must be at least 1")
    ∧ (∀ (f t r : String) (fr tr : Int), jsParseInt f = some fr → 1 ≤ fr →
        jsParseInt t = some tr → fr ≤ tr →
        (jsParseFloat r = none ∨ ∃ q, jsParseFloat r = some q ∧ q < 0) →
        handleSave f t r = Except.error "Rate per room must be a valid number >= 0") :=
  ⟨by rfl,
   ⟨by norm_num [mkRat, Rat.normalize], by rfl⟩,
   handleSave_from_invalid,
   handleSave_rate_invalid⟩

/-- Witness for C8: the universal rejection clauses instantiated at
concrete inputs. -/
theorem plan_form_validation_witness :
    handleSave "0" "9" "1" = Except.error "From rooms must be at least 1"
    ∧ handleSave "1" "10" "-2" = Except.error "Rate per room must be a valid number >= 0" :=
  ⟨plan_form_validation.2.2.1 "0" "9" "1" (Or.inr ⟨0, by decide, by decide⟩),
   plan_form_validation.2.2.2 "1" "10" "-2" 1 10 (by decide) (by decide) (by decide)
     (by decide) (Or.inr ⟨mkRat (-2) 1, by decide, by decide⟩)⟩

/-- C10: every accepted submission carries exactly the `parseInt` values of
the two room strings — the value of the maximal leading digit run, so "5.9"
passes validation as 5 and is submitted as 5 — while `ratePerRoom` carries
the full decimal `parseFloat` value, untruncated. -/
theorem plan_form_parse_semantics :
    (∀ (f t r : String) (body : PlanRequestBody), handleSave f t r = Except.ok body →
       jsParseInt f = some body.fromRooms ∧ jsParseInt t = some body.toRooms ∧
       jsParseFloat r = some body.ratePerRoom)
    ∧ handleSave "5.9" "10" "2.5" =
        Except.ok { fromRooms := 5, toRooms := 10, ratePerRoom := mkRat 5 2 }
    ∧ jsParseInt "59.99" = some 59
    ∧ jsParseFloat "59.99" = some (mkRat 5999 100) :=
  ⟨handleSave_ok_fields, by rfl, by rfl, by rfl⟩

/-- Witness for C10: the field-provenance clause at a concrete accepted
submission. -/
theorem plan_form_parse_semantics_witness :
    jsParseInt "5.9" = some 5 ∧ jsParseInt "10" = some 10 ∧
    jsParseFloat "2.5" = some (mkRat 5 2) :=
  plan_form_parse_semantics.1 "5.9" "10" "2.5"
    { fromRooms := 5, toRooms := 10, ratePerRoom := mkRat 5 2 } (by rfl)

/-! ## Permission lookup case analysis -/

/-- With pairwise-distinct keys, `find?` on a key-equality predicate
returns exactly the member carrying that key. -/
lemma find_key_eq {α : Type} (key : α → String) (K : String) (l : List α)
    (hnd : (l.map key).Nodup) (a : α) (ha : a ∈ l) (hk : key a = K) :
    l.find? (fun x => key x == K) = some a := by
  induction l with
  | nil => cases ha
  | cons x xs ih =>
    rw [List.map_cons, List.nodup_cons] at hnd
    rcases List.mem_cons.mp ha with rfl | hmem
    · exact List.find?_cons_of_pos _ (by simp [hk])
    · have hx : (key x == K) = false := by
        rw [beq_eq_false_iff_ne]
        intro hEq
        exact hnd.1 (by rw [hEq, ← hk]; exact List.mem_map_of_mem key hmem)
      rw [List.find?_cons_of_neg _ (by simp [hx])]
      exact ih hnd.2 hmem

/-- Reduction of `getPermissions` when the main menu is not found. -/
lemma getPermissions_find_none (d : PermissionsData) (M S : String)
    (h : d.role ≠ Role.admin)
    (hfind : d.menus.find? (fun m => m.main_menu == M) = none) :
    getPermissions (some d) M S = NO_PERMISSIONS := by
  simp [getPermissions, isAdmin_eq_false h, hfind]

/-- Reduction of `getPermissions` when the submenu is not found. -/
lemma getPermissions_sub_none (d : PermissionsData) (M S : String)
    {me : MainMenu} (h : d.role ≠ Role.admin)
    (hfind : d.menus.find? (fun m => m.main_menu == M) = some me)
    (hsub : me.sub_menu.find? (fun s => s.menu_name == S) = none) :
    getPermissions (some d) M S = NO_PERMISSIONS := by
  simp [getPermissions, isAdmin_eq_false h, hfind, hsub]

/-- Reduction of `getPermissions` when the exact submenu entry is found. -/
lemma getPermissions_sub_some (d : PermissionsData) (M S : String)
    {me : MainMenu} {se : SubMenuItem} (h : d.role ≠ Role.admin)
    (hfind : d.menus.find? (fun m => m.main_menu == M) = some me)
    (hsub : me.sub_menu.find? (fun s => s.menu_name == S) = some se) :
    getPermissions (some d) M S = se.permissions := by
  simp [getPermissions, isAdmin_eq_false h, hfind, hsub]

/-- Loaded non-admin data whose single stored record has all three
capability flags false. -/
def allFalseStoreData : PermissionsData :=
  { role := Role.user, groupName := none, groupId := none,
    menus := [ { main_menu := "Team",
                 sub_menu := [ { menu_name := "Users", url := "team-users",
                                 permissions := NO_PERMISSIONS } ] } ] }

/-- C2 counterexample: with a stored record whose flags are all false,
`getPermissions` returns all-false even though a record for the pair
exists, refuting the claimed iff over arbitrary stored sets. -/
theorem getPermissions_allfalse_iff_cex :
    getPermissions (some allFalseStoreData) "Team" "Users" = NO_PERMISSIONS
    ∧ (∃ m, m ∈ allFalseStoreData.menus ∧ m.main_menu = "Team" ∧
        ∃ s, s ∈ m.sub_menu ∧ s.menu_name = "Users")
    ∧ allFalseStoreData.role ≠ Role.admin := by
  refine ⟨by rfl, ?_, by decide⟩
  exact ⟨{ main_menu := "Team",
           sub_menu := [ { menu_name := "Users", url := "team-users",
                           permissions := NO_PERMISSIONS } ] },
         by simp [allFalseStoreData], rfl,
         { menu_name := "Users", url := "team-users", permissions := NO_PERMISSIONS },
         by simp, rfl⟩

/-- C2 amended: the case split of `getPermissions` — no data gives
all-false, admin gives all-true, and otherwise the exact submenu entry's
stored flags (all-false when absent); the all-false-iff-no-record
equivalence holds under the data-model invariants that main-menu names and
submenu names are unique and no stored entry has all three flags false. -/
theorem getPermissions_lookup_amended :
    (∀ M S, getPermissions none M S = NO_PERMISSIONS)
    ∧ (∀ (d : PermissionsData) (M S : String), d.role = Role.admin →
        getPermissions (some d) M S = { add := true, change := true, delete := true })
    ∧ (∀ (d : PermissionsData) (M S : String), d.role ≠ Role.admin →
        (d.menus.map MainMenu.main_menu).Nodup →
        (∀ m ∈ d.menus, (m.sub_menu.map SubMenuItem.menu_name).Nodup) →
        (∀ m ∈ d.menus, ∀ s ∈ m.sub_menu, s.permissions ≠ NO_PERMISSIONS) →
        ((∀ m ∈ d.menus, m.main_menu = M → ∀ s ∈ m.sub_menu, s.menu_name = S →
            getPermissions (some d) M S = s.permissions)
         ∧ (getPermissions (some d) M S = NO_PERMISSIONS ↔
              ¬ ∃ m, m ∈ d.menus ∧ m.main_menu = M ∧
                  ∃ s, s ∈ m.sub_menu ∧ s.menu_name = S))) := by
  refine ⟨fun M S => rfl, fun d M S h => by simp [getPermissions, isAdmin, h], ?_⟩
  intro d M S hrole hndM hndS hnorm
  constructor
  · intro m hm hmM s hs hsS
    have hfind : d.menus.find? (fun x => x.main_menu == M) = some m :=
      find_key_eq MainMenu.main_menu M d.menus hndM m hm hmM
    have hsub : m.sub_menu.find? (fun x => x.menu_name == S) = some s :=
      find_key_eq SubMenuItem.menu_name S m.sub_menu (hndS m hm) s hs hsS
    exact getPermissions_sub_some d M S hrole hfind hsub
  · constructor
    · intro hres hex
      rcases hex with ⟨m, hm, hmM, s, hs, hsS⟩
      have hfind : d.menus.find? (fun x => x.main_menu == M) = some m :=
        find_key_eq MainMenu.main_menu M d.menus hndM m hm hmM
      cases hsubf : m.sub_menu.find? (fun x => x.menu_name == S) with
      | none =>
        have hno := List.find?_eq_none.mp hsubf s hs
        simp [hsS] at hno
      | some se =>
        have hres2 := getPermissions_sub_some d M S hrole hfind hsubf
        have hseMem := List.mem_of_find?_eq_some hsubf
        exact hnorm m hm se hseMem (by rw [← hres2, hres])
    · intro hnone
      cases hfind : d.menus.find? (fun x => x.main_menu == M) with
      | none => exact getPermissions_find_none d M S hrole hfind
      | some me =>
        cases hsubf : me.sub_menu.find? (fun x => x.menu_name == S) with
        | none => exact getPermissions_sub_none d M S hrole hfind hsubf
        | some se =>
          exfalso
          apply hnone
          have hmeMem := List.mem_of_find?_eq_some hfind
          have hmeM : me.main_menu = M := by
            have hp := List.find?_some hfind
            simpa using hp
          have hseMem := List.mem_of_find?_eq_some hsubf
          have hseS : se.menu_name = S := by
            have hp := List.find?_some hsubf
            simpa using hp
          exact ⟨me, hmeMem, hmeM, se, hseMem, hseS⟩

/-- Witness for the amended C2 at the spec's user scenario data. -/
theorem getPermissions_lookup_amended_witness :
    getPermissions (some sampleUserData) "Team" "Users" =
      { add := true, change := false, delete := false } :=
  (getPermissions_lookup_amended.2.2 sampleUserData "Team" "Users"
      (by decide) (by decide) (by decide) (by decide)).1
    { main_menu := "Team",
      sub_menu := [ { menu_name := "Users", url := "team-users",
                      permissions := { add := true, change := false, delete := false } } ] }
    (by simp [sampleUserData]) rfl
    { menu_name := "Users", url := "team-users",
      permissions := { add := true, change := false, delete := false } }
    (by simp) rfl

/-! ## Permission Matrix operations -/

/-- The composite key `mainMenu|subMenu` used by the matrix's lookup map. -/
def permKey (p : MenuPermissionData) : String × String := (p.mainMenu, p.subMenu)

/-- The pruning condition of `toggle`: all three capability flags false. -/
def allFlagsFalse (p : MenuPermissionData) : Bool :=
  !p.canAdd && !p.canChange && !p.canDelete

/-- Flipping a capability flag never changes a record's key. -/
lemma permKey_flipField (f : PermField) (p : MenuPermissionData) :
    permKey (flipField f p) = permKey p := by
  cases f <;> rfl

/-- The matrix's match predicate holds exactly on the operated key. -/
lemma permMatches_iff_key (M S : String) (p : MenuPermissionData) :
    permMatches M S p = true ↔ permKey p = (M, S) := by
  simp [permMatches, permKey, Prod.ext_iff]

/-- The update callback preserves whether a record matches the pair. -/
lemma permMatches_flipIf (M S : String) (f : PermField) (p : MenuPermissionData) :
    permMatches M S (flipIf M S f p) = permMatches M S p := by
  unfold flipIf
  by_cases h : permMatches M S p
  · rw [if_pos h]
    rw [h]
    rw [permMatches_iff_key, permKey_flipField, ← permMatches_iff_key]
    exact h
  · rw [if_neg h]

/-- The lookup map misses a string key iff no record carries that key. -/
lemma permMapGet_eq_none_iff (l : List MenuPermissionData) (key : String) :
    permMapGet l key = none ↔ ∀ p ∈ l, (permStringKey p == key) = false := by
  unfold permMapGet
  rw [List.getLast?_eq_none_iff, List.filter_eq_nil_iff]
  constructor
  · intro h p hp
    have := h p hp
    simpa using this
  · intro h p hp
    simp [h p hp]

/-- A record of the pair always carries the pair's concatenated string key
(the converse can fail when the names themselves contain a pipe). -/
lemma permStringKey_of_matches (M S : String) (p : MenuPermissionData)
    (h : permMatches M S p = true) : permStringKey p = M ++ "|" ++ S := by
  have hk := (permMatches_iff_key M S p).mp h
  have h1 : p.mainMenu = M := congrArg Prod.fst hk
  have h2 : p.subMenu = S := congrArg Prod.snd hk
  unfold permStringKey
  rw [h1, h2]

/-- A miss of the string-keyed map implies no record of the pair exists. -/
lemma no_match_of_permMapGet_none (l : List MenuPermissionData) (M S : String)
    (h : permMapGet l (M ++ "|" ++ S) = none) :
    ∀ p ∈ l, permMatches M S p = false := by
  intro p hp
  cases hm : permMatches M S p with
  | false => rfl
  | true =>
    exfalso
    have hkey := permStringKey_of_matches M S p hm
    have hiff := (permMapGet_eq_none_iff l (M ++ "|" ++ S)).mp h p hp
    rw [hkey] at hiff
    simp at hiff

/-- The update branch leaves the key list unchanged. -/
lemma map_flipIf_keys (l : List MenuPermissionData) (M S : String) (f : PermField) :
    (l.map (flipIf M S f)).map permKey = l.map permKey := by
  rw [List.map_map]
  apply List.map_congr_left
  intro p _
  show permKey (flipIf M S f p) = permKey p
  unfold flipIf
  by_cases h : permMatches M S p
  · rw [if_pos h, permKey_flipField]
  · rw [if_neg h]

/-- Records not matching the pair pass through the update map untouched. -/
lemma filter_not_map_flipIf (l : List MenuPermissionData) (M S : String) (f : PermField) :
    (l.map (flipIf M S f)).filter (fun p => !permMatches M S p) =
      l.filter (fun p => !permMatches M S p) := by
  induction l with
  | nil => rfl
  | cons q l ih =>
    by_cases h : permMatches M S q
    · simp only [List.map_cons, List.filter_cons, permMatches_flipIf, h]
      simpa using ih
    · have hq : permMatches M S q = false := by simp [h]
      simp only [List.map_cons, List.filter_cons, permMatches_flipIf, hq]
      simp only [flipIf, hq, Bool.false_eq_true, if_false, Bool.not_false, if_true]
      rw [ih]

/-- After removing the matching records, none match. -/
lemma filter_not_then_pos {α : Type} (q : α → Bool) (l : List α) :
    (l.filter (fun a => !q a)).filter q = [] := by
  rw [List.filter_filter]
  simp

/-- Removing the matching records twice is the same as once. -/
lemma filter_not_idem {α : Type} (q : α → Bool) (l : List α) :
    (l.filter (fun a => !q a)).filter (fun a => !q a) = l.filter (fun a => !q a) := by
  rw [List.filter_filter]
  simp

/-- When the string-keyed map misses (so in particular no record of the
pair exists), `toggle` appends a fresh single-flag record. -/
lemma toggle_eq_append (l : List MenuPermissionData) (M S u : String) (f : PermField)
    (hlk : permMapGet l (M ++ "|" ++ S) = none) :
    toggle l M S u f = l ++
      [{ mainMenu := M, subMenu := S, url := u,
         canAdd := f == PermField.canAdd, canChange := f == PermField.canChange,
         canDelete := f == PermField.canDelete }] := by
  unfold toggle
  rw [hlk]

/-- Update branch of `toggle` when the field-matching re-lookup misses —
reachable when the map hit was only a string-key collider: the list is
returned with no record changed. -/
lemma toggle_eq_find_none (l : List MenuPermissionData) (M S u : String) (f : PermField)
    (e : MenuPermissionData) (hlk : permMapGet l (M ++ "|" ++ S) = some e)
    (hfind : (l.map (flipIf M S f)).find? (permMatches M S) = none) :
    toggle l M S u f = l.map (flipIf M S f) := by
  unfold toggle
  rw [hlk]
  simp only [hfind]

/-- Update branch of `toggle` (map hit on the string key) that prunes an
all-false result. -/
lemma toggle_eq_remove (l : List MenuPermissionData) (M S u : String) (f : PermField)
    (e target : MenuPermissionData) (hlk : permMapGet l (M ++ "|" ++ S) = some e)
    (hfind : (l.map (flipIf M S f)).find? (permMatches M S) = some target)
    (hall : (!target.canAdd && !target.canChange && !target.canDelete) = true) :
    toggle l M S u f = (l.map (flipIf M S f)).filter (fun p => !permMatches M S p) := by
  unfold toggle
  rw [hlk]
  simp only [hfind, hall, if_true]

/-- Update branch of `toggle` (map hit on the string key) that keeps a
not-all-false result. -/
lemma toggle_eq_keep (l : List MenuPermissionData) (M S u : String) (f : PermField)
    (e target : MenuPermissionData) (hlk : permMapGet l (M ++ "|" ++ S) = some e)
    (hfind : (l.map (flipIf M S f)).find? (permMatches M S) = some target)
    (hall : (!target.canAdd && !target.canChange && !target.canDelete) = false) :
    toggle l M S u f = l.map (flipIf M S f) := by
  unfold toggle
  rw [hlk]
  simp only [hfind, hall, Bool.false_eq_true, if_false]

/-- When the map's last record under the pair's string key is fully
granted, `toggleAll` removes the pair's records. -/
lemma toggleAll_eq_remove (l : List MenuPermissionData) (M S u : String)
    (e : MenuPermissionData) (hlk : permMapGet l (M ++ "|" ++ S) = some e)
    (hall : (e.canAdd && e.canChange && e.canDelete) = true) :
    toggleAll l M S u = l.filter (fun p => !permMatches M S p) := by
  unfold toggleAll
  rw [hlk]
  simp only [hall, if_true]

/-- When the string-keyed map misses, `toggleAll` appends the full-grant
record. -/
lemma toggleAll_eq_grant_none (l : List MenuPermissionData) (M S u : String)
    (hlk : permMapGet l (M ++ "|" ++ S) = none) :
    toggleAll l M S u = l.filter (fun p => !permMatches M S p) ++
      [{ mainMenu := M, subMenu := S, url := u,
         canAdd := true, canChange := true, canDelete := true }] := by
  unfold toggleAll
  rw [hlk]
  rfl

/-- When the map's last record under the string key is not fully granted,
`toggleAll` replaces the pair's records with a full grant. -/
lemma toggleAll_eq_regrant (l : List MenuPermissionData) (M S u : String)
    (e : MenuPermissionData) (hlk : permMapGet l (M ++ "|" ++ S) = some e)
    (hall : (e.canAdd && e.canChange && e.canDelete) = false) :
    toggleAll l M S u = l.filter (fun p => !permMatches M S p) ++
      [{ mainMenu := M, subMenu := S, url := u,
         canAdd := true, canChange := true, canDelete := true }] := by
  unfold toggleAll
  rw [hlk]
  simp only [hall, Bool.false_eq_true, if_false]

/-- Filtering preserves distinctness of keys. -/
lemma nodup_keys_filter (l : List MenuPermissionData) (q : MenuPermissionData → Bool)
    (hnd : (l.map permKey).Nodup) : ((l.filter q).map permKey).Nodup :=
  List.Nodup.sublist (List.Sublist.map permKey (List.filter_sublist l)) hnd

/-- Appending a record whose key is absent preserves key distinctness. -/
lemma nodup_keys_append_fresh (l : List MenuPermissionData) (M S : String)
    (r : MenuPermissionData) (hnd : (l.map permKey).Nodup)
    (hkey : permKey r = (M, S))
    (hnone : ∀ p ∈ l, permMatches M S p = false) :
    ((l ++ [r]).map permKey).Nodup := by
  rw [List.map_append]
  rw [List.nodup_append]
  refine ⟨hnd, by simp, ?_⟩
  intro a ha hb
  simp only [List.map_cons, List.map_nil, List.mem_singleton] at hb
  subst hb
  rcases List.mem_map.mp ha with ⟨p, hp, hkp⟩
  have hmatch : permMatches M S p = true := by
    rw [permMatches_iff_key, hkp, hkey]
  rw [hnone p hp] at hmatch
  cases hmatch

/-- `toggle` preserves distinctness of `(mainMenu, subMenu)` keys. -/
lemma toggle_keys_nodup (l : List MenuPermissionData) (M S u : String) (f : PermField)
    (hnd : (l.map permKey).Nodup) : ((toggle l M S u f).map permKey).Nodup := by
  cases hlk : permMapGet l (M ++ "|" ++ S) with
  | none =>
    rw [toggle_eq_append l M S u f hlk]
    refine nodup_keys_append_fresh l M S _ hnd rfl ?_
    exact no_match_of_permMapGet_none l M S hlk
  | some e =>
    have hupd : ((l.map (flipIf M S f)).map permKey).Nodup := by
      rw [map_flipIf_keys]; exact hnd
    cases hfind : (l.map (flipIf M S f)).find? (permMatches M S) with
    | none => rw [toggle_eq_find_none l M S u f e hlk hfind]; exact hupd
    | some target =>
      cases hall : (!target.canAdd && !target.canChange && !target.canDelete) with
      | true =>
        rw [toggle_eq_remove l M S u f e target hlk hfind hall]
        exact nodup_keys_filter _ _ hupd
      | false =>
        rw [toggle_eq_keep l M S u f e target hlk hfind hall]
        exact hupd

/-- `toggleAll` preserves distinctness of `(mainMenu, subMenu)` keys. -/
lemma toggleAll_keys_nodup (l : List MenuPermissionData) (M S u : String)
    (hnd : (l.map permKey).Nodup) : ((toggleAll l M S u).map permKey).Nodup := by
  have hfiltered : ∀ p ∈ l.filter (fun p => !permMatches M S p), permMatches M S p = false := by
    intro p hp
    have := (List.mem_filter.mp hp).2
    simpa using this
  cases hlk : permMapGet l (M ++ "|" ++ S) with
  | none =>
    rw [toggleAll_eq_grant_none l M S u hlk]
    exact nodup_keys_append_fresh _ M S _ (nodup_keys_filter l _ hnd) rfl hfiltered
  | some e =>
    cases hall : (e.canAdd && e.canChange && e.canDelete) with
    | true =>
      rw [toggleAll_eq_remove l M S u e hlk hall]
      exact nodup_keys_filter l _ hnd
    | false =>
      rw [toggleAll_eq_regrant l M S u e hlk hall]
      exact nodup_keys_append_fresh _ M S _ (nodup_keys_filter l _ hnd) rfl hfiltered

/-- Members of the updated list come from members of the original. -/
lemma mem_map_flipIf {l : List MenuPermissionData} {M S : String} {f : PermField}
    {p : MenuPermissionData} (hp : p ∈ l.map (flipIf M S f)) :
    ∃ q ∈ l, p = flipIf M S f q := by
  rcases List.mem_map.mp hp with ⟨q, hq, hpq⟩
  exact ⟨q, hq, hpq.symm⟩

/-- With unique keys, `toggle` never leaves an all-false record behind. -/
lemma toggle_norm (l : List MenuPermissionData) (M S u : String) (f : PermField)
    (hnd : (l.map permKey).Nodup)
    (hnorm : ∀ p ∈ l, allFlagsFalse p = false) :
    ∀ p ∈ toggle l M S u f, allFlagsFalse p = false := by
  cases hlk : permMapGet l (M ++ "|" ++ S) with
  | none =>
    rw [toggle_eq_append l M S u f hlk]
    intro p hp
    rcases List.mem_append.mp hp with hmem | hmem
    · exact hnorm p hmem
    · rw [List.mem_singleton] at hmem
      subst hmem
      cases f <;> rfl
  | some e =>
    have hupdnd : ((l.map (flipIf M S f)).map permKey).Nodup := by
      rw [map_flipIf_keys]; exact hnd
    cases hfind : (l.map (flipIf M S f)).find? (permMatches M S) with
    | none =>
      rw [toggle_eq_find_none l M S u f e hlk hfind]
      intro p hp
      rcases mem_map_flipIf hp with ⟨q, hq, hpq⟩
      have hq_nomatch : permMatches M S q = false := by
        cases hqm : permMatches M S q with
        | false => rfl
        | true =>
          exfalso
          have hin : flipIf M S f q ∈ l.map (flipIf M S f) := List.mem_map_of_mem _ hq
          have hno := List.find?_eq_none.mp hfind _ hin
          rw [permMatches_flipIf, hqm] at hno
          exact hno rfl
      rw [hpq]
      unfold flipIf
      rw [hq_nomatch]
      simp only [Bool.false_eq_true, if_false]
      exact hnorm q hq
    | some target =>
      cases hall : (!target.canAdd && !target.canChange && !target.canDelete) with
      | true =>
        rw [toggle_eq_remove l M S u f e target hlk hfind hall]
        intro p hp
        have hmem := List.mem_filter.mp hp
        have hnot : permMatches M S p = false := by
          have := hmem.2; simpa using this
        rcases mem_map_flipIf hmem.1 with ⟨q, hq, hpq⟩
        have hq_nomatch : permMatches M S q = false := by
          rw [← permMatches_flipIf M S f q, ← hpq]
          exact hnot
        rw [hpq]
        unfold flipIf
        rw [hq_nomatch]
        simp only [Bool.false_eq_true, if_false]
        exact hnorm q hq
      | false =>
        rw [toggle_eq_keep l M S u f e target hlk hfind hall]
        intro p hp
        rcases mem_map_flipIf hp with ⟨q, hq, hpq⟩
        cases hq_match : permMatches M S q with
        | false =>
          rw [hpq]
          unfold flipIf
          rw [hq_match]
          simp only [Bool.false_eq_true, if_false]
          exact hnorm q hq
        | true =>
          have hp_match : permMatches M S p = true := by
            rw [hpq, permMatches_flipIf]
            exact hq_match
          have htmem := List.mem_of_find?_eq_some hfind
          have htmatch : permMatches M S target = true := List.find?_some hfind
          have hpt : p = target := by
            apply List.inj_on_of_nodup_map hupdnd hp htmem
            rw [(permMatches_iff_key M S p).mp hp_match,
                (permMatches_iff_key M S target).mp htmatch]
          rw [hpt]
          exact hall

/-- `toggleAll` never leaves an all-false record behind. -/
lemma toggleAll_norm (l : List MenuPermissionData) (M S u : String)
    (hnorm : ∀ p ∈ l, allFlagsFalse p = false) :
    ∀ p ∈ toggleAll l M S u, allFlagsFalse p = false := by
  have hfilter : ∀ p ∈ l.filter (fun p => !permMatches M S p), allFlagsFalse p = false :=
    fun p hp => hnorm p (List.mem_filter.mp hp).1
  have happend : ∀ p ∈ l.filter (fun p => !permMatches M S p) ++
      [{ mainMenu := M, subMenu := S, url := u,
         canAdd := true, canChange := true, canDelete := true }],
      allFlagsFalse p = false := by
    intro p hp
    rcases List.mem_append.mp hp with hmem | hmem
    · exact hfilter p hmem
    · rw [List.mem_singleton] at hmem
      subst hmem
      rfl
  cases hlk : permMapGet l (M ++ "|" ++ S) with
  | none =>
    rw [toggleAll_eq_grant_none l M S u hlk]
    exact happend
  | some e =>
    cases hall : (e.canAdd && e.canChange && e.canDelete) with
    | true =>
      rw [toggleAll_eq_remove l M S u e hlk hall]
      exact hfilter
    | false =>
      rw [toggleAll_eq_regrant l M S u e hlk hall]
      exact happend

/-- `toggle` leaves the records of every other pair exactly as they were. -/
lemma toggle_frame (l : List MenuPermissionData) (M S u : String) (f : PermField) :
    (toggle l M S u f).filter (fun p => !permMatches M S p) =
      l.filter (fun p => !permMatches M S p) := by
  cases hlk : permMapGet l (M ++ "|" ++ S) with
  | none =>
    rw [toggle_eq_append l M S u f hlk, List.filter_append]
    have hmatch : permMatches M S
        { mainMenu := M, subMenu := S, url := u,
          canAdd := f == PermField.canAdd, canChange := f == PermField.canChange,
          canDelete := f == PermField.canDelete } = true := by
      simp [permMatches]
    simp [hmatch]
  | some e =>
    cases hfind : (l.map (flipIf M S f)).find? (permMatches M S) with
    | none =>
      rw [toggle_eq_find_none l M S u f e hlk hfind]
      exact filter_not_map_flipIf l M S f
    | some target =>
      cases hall : (!target.canAdd && !target.canChange && !target.canDelete) with
      | true =>
        rw [toggle_eq_remove l M S u f e target hlk hfind hall]
        rw [filter_not_idem, filter_not_map_flipIf]
      | false =>
        rw [toggle_eq_keep l M S u f e target hlk hfind hall]
        exact filter_not_map_flipIf l M S f

/-- `toggleAll` leaves the records of every other pair exactly as they were. -/
lemma toggleAll_frame (l : List MenuPermissionData) (M S u : String) :
    (toggleAll l M S u).filter (fun p => !permMatches M S p) =
      l.filter (fun p => !permMatches M S p) := by
  have hgrant : (l.filter (fun p => !permMatches M S p) ++
      [({ mainMenu := M, subMenu := S, url := u,
          canAdd := true, canChange := true, canDelete := true } : MenuPermissionData)]).filter
        (fun p => !permMatches M S p) = l.filter (fun p => !permMatches M S p) := by
    rw [List.filter_append, filter_not_idem]
    have hmatch : permMatches M S
        { mainMenu := M, subMenu := S, url := u,
          canAdd := true, canChange := true, canDelete := true } = true := by
      simp [permMatches]
    simp [hmatch]
  cases hlk : permMapGet l (M ++ "|" ++ S) with
  | none => rw [toggleAll_eq_grant_none l M S u hlk]; exact hgrant
  | some e =>
    cases hall : (e.canAdd && e.canChange && e.canDelete) with
    | true => rw [toggleAll_eq_remove l M S u e hlk hall]; exact filter_not_idem _ l
    | false => rw [toggleAll_eq_regrant l M S u e hlk hall]; exact hgrant

/-- A just-appended full-grant record is the last writer of its string key,
whatever other records (colliding ones included) precede it. -/
lemma permMapGet_concat_full (l : List MenuPermissionData) (M S u : String) :
    permMapGet (l ++
      [({ mainMenu := M, subMenu := S, url := u,
          canAdd := true, canChange := true, canDelete := true } : MenuPermissionData)])
      (M ++ "|" ++ S) =
      some { mainMenu := M, subMenu := S, url := u,
             canAdd := true, canChange := true, canDelete := true } := by
  unfold permMapGet
  rw [List.filter_append]
  have hT : ([({ mainMenu := M, subMenu := S, url := u,
                 canAdd := true, canChange := true,
                 canDelete := true } : MenuPermissionData)]).filter
      (fun p => permStringKey p == M ++ "|" ++ S) =
      [({ mainMenu := M, subMenu := S, url := u,
          canAdd := true, canChange := true,
          canDelete := true } : MenuPermissionData)] := by
    simp [permStringKey]
  rw [hT, List.getLast?_concat]

/-- Removing the pair's records after a full grant recovers the removal. -/
lemma grant_filter_not (l : List MenuPermissionData) (M S u : String) :
    (l.filter (fun p => !permMatches M S p) ++
      [({ mainMenu := M, subMenu := S, url := u,
          canAdd := true, canChange := true, canDelete := true } : MenuPermissionData)]).filter
        (fun p => !permMatches M S p) = l.filter (fun p => !permMatches M S p) := by
  rw [List.filter_append, filter_not_idem]
  have hmatch : ([({ mainMenu := M, subMenu := S, url := u,
                     canAdd := true, canChange := true,
                     canDelete := true } : MenuPermissionData)]).filter
        (fun p => !permMatches M S p) = [] := by
    simp [permMatches]
  rw [hmatch, List.append_nil]

/-- C4 amended: the exact state of the operated pair after applying
`toggleAll` twice.  If the map's last record under the key
`mainMenu|subMenu` is missing or not fully granted, the pair ends with no
record.  If it is fully granted, the first call removes the pair and the
second call consults the map again: the pair ends with the full-grant
record carrying the call's url, unless some remaining record — necessarily
a string-key collider such as `("A","B|C")` versus the pair `("A|B","C")`
— is the key's last writer and fully granted, in which case the pair ends
absent.  Hence the double application restores the original pair state
exactly when the pair was absent, or collision-free and fully granted with
the call's url; a partially-granted record is removed, not restored. -/
theorem toggleAll_pair_involution (l : List MenuPermissionData) (M S u : String) :
    (toggleAll (toggleAll l M S u) M S u).filter (permMatches M S) =
      (match permMapGet l (M ++ "|" ++ S) with
       | some e =>
         if e.canAdd && e.canChange && e.canDelete then
           (match permMapGet (l.filter (fun p => !permMatches M S p)) (M ++ "|" ++ S) with
            | some c =>
              if c.canAdd && c.canChange && c.canDelete then []
              else
                [({ mainMenu := M, subMenu := S, url := u,
                    canAdd := true, canChange := true,
                    canDelete := true } : MenuPermissionData)]
            | none =>
              [({ mainMenu := M, subMenu := S, url := u,
                  canAdd := true, canChange := true,
                  canDelete := true } : MenuPermissionData)])
         else []
       | none => []) := by
  cases hlk : permMapGet l (M ++ "|" ++ S) with
  | none =>
    rw [toggleAll_eq_grant_none l M S u hlk]
    rw [toggleAll_eq_remove _ M S u _ (permMapGet_concat_full _ M S u) (by rfl)]
    rw [grant_filter_not, filter_not_then_pos]
  | some e =>
    cases hall : (e.canAdd && e.canChange && e.canDelete) with
    | true =>
      rw [toggleAll_eq_remove l M S u e hlk hall]
      cases hc : permMapGet (l.filter (fun p => !permMatches M S p)) (M ++ "|" ++ S) with
      | none =>
        rw [toggleAll_eq_grant_none _ M S u hc]
        rw [List.filter_append, filter_not_idem, filter_not_then_pos]
        simp [permMatches, hall]
      | some c =>
        cases hcall : (c.canAdd && c.canChange && c.canDelete) with
        | true =>
          rw [toggleAll_eq_remove _ M S u c hc hcall]
          rw [filter_not_idem, filter_not_then_pos]
          simp [hall, hcall]
        | false =>
          rw [toggleAll_eq_regrant _ M S u c hc hcall]
          rw [List.filter_append, filter_not_idem, filter_not_then_pos]
          simp [permMatches, hall, hcall]
    | false =>
      rw [toggleAll_eq_regrant l M S u e hlk hall]
      rw [toggleAll_eq_remove _ M S u _ (permMapGet_concat_full _ M S u) (by rfl)]
      rw [grant_filter_not, filter_not_then_pos]
      simp [hall]

/-- A one-record list whose single record is only partially granted. -/
def partialPermList : List MenuPermissionData :=
  [ { mainMenu := "A", subMenu := "B", url := "u",
      canAdd := true, canChange := false, canDelete := false } ]

/-- C4 counterexample: on a partially-granted record, applying `toggleAll`
twice removes the record instead of restoring it. -/
theorem toggleAll_twice_cex :
    partialPermList.filter (permMatches "A" "B") =
      [({ mainMenu := "A", subMenu := "B", url := "u",
          canAdd := true, canChange := false, canDelete := false } : MenuPermissionData)]
    ∧ toggleAll (toggleAll partialPermList "A" "B" "u") "A" "B" "u" = []
    ∧ (toggleAll (toggleAll partialPermList "A" "B" "u") "A" "B" "u").filter
        (permMatches "A" "B") = [] := by
  refine ⟨by decide, by decide, by decide⟩

/-- Two records sharing one `(mainMenu, subMenu)` key, neither all-false. -/
def dupPermList : List MenuPermissionData :=
  [ { mainMenu := "A", subMenu := "B", url := "u",
      canAdd := true, canChange := false, canDelete := false },
    { mainMenu := "A", subMenu := "B", url := "u",
      canAdd := false, canChange := true, canDelete := false } ]

/-- C3 counterexample: starting from a duplicate-key list with no
all-false record, one `toggle` leaves an all-false record in the list,
refuting the invariant as stated over arbitrary lists. -/
theorem matrix_norm_cex :
    (∀ p ∈ dupPermList, allFlagsFalse p = false)
    ∧ ({ mainMenu := "A", subMenu := "B", url := "u",
         canAdd := false, canChange := false, canDelete := false } : MenuPermissionData) ∈
        toggle dupPermList "A" "B" "u" PermField.canChange
    ∧ allFlagsFalse ({ mainMenu := "A", subMenu := "B", url := "u",
                       canAdd := false, canChange := false,
                       canDelete := false } : MenuPermissionData) = true := by
  refine ⟨by decide, by decide, by decide⟩

/-- One user interaction with the Permission Matrix grid. -/
inductive MatrixOp where
  | tog (mainMenu subMenu url : String) (field : PermField)
  | togAll (mainMenu subMenu url : String)

/-- Apply a single matrix operation. -/
def applyOp (l : List MenuPermissionData) : MatrixOp → List MenuPermissionData
  | MatrixOp.tog M S u f => toggle l M S u f
  | MatrixOp.togAll M S u => toggleAll l M S u

/-- Apply a finite sequence of matrix operations in order. -/
def applyOps (l : List MenuPermissionData) (ops : List MatrixOp) : List MenuPermissionData :=
  ops.foldl applyOp l

/-- C3 amended: starting from a list with at most one record per
`(mainMenu, subMenu)` pair and no all-false record — the shape every list
reachable in the UI has — any finite sequence of `toggle`/`toggleAll`
operations preserves both properties, in particular no resulting record
has all three flags false. -/
theorem matrix_norm_invariant_amended (ops : List MatrixOp) (l : List MenuPermissionData)
    (hnd : (l.map permKey).Nodup) (hnorm : ∀ p ∈ l, allFlagsFalse p = false) :
    ((applyOps l ops).map permKey).Nodup ∧
      ∀ p ∈ applyOps l ops, allFlagsFalse p = false := by
  induction ops generalizing l with
  | nil => exact ⟨hnd, hnorm⟩
  | cons op ops ih =>
    have hstep : ((applyOp l op).map permKey).Nodup ∧
        ∀ p ∈ applyOp l op, allFlagsFalse p = false := by
      cases op with
      | tog M S u f => exact ⟨toggle_keys_nodup l M S u f hnd, toggle_norm l M S u f hnd hnorm⟩
      | togAll M S u => exact ⟨toggleAll_keys_nodup l M S u hnd, toggleAll_norm l M S u hnorm⟩
    have hfold : applyOps l (op :: ops) = applyOps (applyOp l op) ops := rfl
    rw [hfold]
    exact ih (applyOp l op) hstep.1 hstep.2

/-- Witness for the amended C3 on a concrete operation sequence. -/
theorem matrix_norm_invariant_amended_witness :
    ((applyOps partialPermList
        [MatrixOp.tog "A" "B" "u" PermField.canAdd, MatrixOp.togAll "A" "B" "u"]).map
        permKey).Nodup ∧
      ∀ p ∈ applyOps partialPermList
          [MatrixOp.tog "A" "B" "u" PermField.canAdd, MatrixOp.togAll "A" "B" "u"],
        allFlagsFalse p = false :=
  matrix_norm_invariant_amended
    [MatrixOp.tog "A" "B" "u" PermField.canAdd, MatrixOp.togAll "A" "B" "u"]
    partialPermList (by decide) (by decide)

/-- C9: on a list where each pair has at most one record, `toggle` and
`toggleAll` preserve that uniqueness, and the sublist of records for every
other pair — flags, url and order included — is exactly unchanged. -/
theorem matrix_frame_and_uniqueness (l : List MenuPermissionData) (M S u : String)
    (f : PermField) (hnd : (l.map permKey).Nodup) :
    ((toggle l M S u f).map permKey).Nodup
    ∧ ((toggleAll l M S u).map permKey).Nodup
    ∧ (toggle l M S u f).filter (fun p => !permMatches M S p) =
        l.filter (fun p => !permMatches M S p)
    ∧ (toggleAll l M S u).filter (fun p => !permMatches M S p) =
        l.filter (fun p => !permMatches M S p) :=
  ⟨toggle_keys_nodup l M S u f hnd, toggleAll_keys_nodup l M S u hnd,
   toggle_frame l M S u f, toggleAll_frame l M S u⟩

/-- Witness for C9 at a concrete record list. -/
theorem matrix_frame_and_uniqueness_witness :
    ((toggle partialPermList "A" "B" "u" PermField.canDelete).map permKey).Nodup
    ∧ ((toggleAll partialPermList "A" "B" "u").map permKey).Nodup
    ∧ (toggle partialPermList "A" "B" "u" PermField.canDelete).filter
        (fun p => !permMatches "A" "B" p) =
        partialPermList.filter (fun p => !permMatches "A" "B" p)
    ∧ (toggleAll partialPermList "A" "B" "u").filter (fun p => !permMatches "A" "B" p) =
        partialPermList.filter (fun p => !permMatches "A" "B" p) :=
  matrix_frame_and_uniqueness partialPermList "A" "B" "u" PermField.canDelete (by decide)

/-! ## Menu filter ordering -/

/-- The order-relevant shape of catalog entries: titles with sub-titles. -/
def menuShape (items : List MenuItem) : List (String × List String) :=
  items.map (fun i => (i.title, i.items.map MenuSubItem.title))

/-- The order-relevant shape of rendered sidebar entries. -/
def sidebarShape (items : List SidebarItem) : List (String × List String) :=
  items.map (fun i => (i.title, i.items.map SidebarSubItem.title))

/-- Nested order-preserving subsequence on menu shapes: the first list
keeps a subsequence of the second's entries in order, and every kept entry
has the same title with its sub-titles an order-preserving sublist of the
original's — exactly "no entry absent from the catalog and no reordering
of siblings at either level". -/
inductive MenuShapeSub : List (String × List String) → List (String × List String) → Prop where
  | nil : MenuShapeSub [] []
  | skip (x : String × List String) {l₁ l₂ : List (String × List String)} :
      MenuShapeSub l₁ l₂ → MenuShapeSub l₁ (x :: l₂)
  | keep {t : String} {s₁ s₂ : List String} {l₁ l₂ : List (String × List String)} :
      List.Sublist s₁ s₂ → MenuShapeSub l₁ l₂ →
      MenuShapeSub ((t, s₁) :: l₁) ((t, s₂) :: l₂)

/-- The empty shape is a subsequence of every shape. -/
lemma menuShapeSub_nil (l : List (String × List String)) : MenuShapeSub [] l := by
  induction l with
  | nil => exact MenuShapeSub.nil
  | cons x l ih => exact MenuShapeSub.skip x ih

/-- Every shape is a subsequence of itself. -/
lemma menuShapeSub_refl (l : List (String × List String)) : MenuShapeSub l l := by
  induction l with
  | nil => exact MenuShapeSub.nil
  | cons x l ih =>
    obtain ⟨t, s⟩ := x
    exact MenuShapeSub.keep (List.Sublist.refl s) ih

/-- The admin branch maps the catalog one-to-one, preserving its shape. -/
lemma adminShape (cat : List MenuItem) :
    sidebarShape (cat.map adminSidebarItem) = menuShape cat := by
  induction cat with
  | nil => rfl
  | cons x cat ih =>
    simp only [sidebarShape, menuShape, List.map_cons] at ih ⊢
    rw [ih]
    simp [adminSidebarItem, List.map_map, Function.comp]

/-- The regular-user branch — filter main menus, filter sub-items, drop
emptied main menus — yields a nested subsequence of any catalog. -/
lemma userShape_sub (data : Option PermissionsData) (cat : List MenuItem) :
    MenuShapeSub
      (sidebarShape (((cat.filter (fun item => hasMenuAccess data item.title none)).map
          (userSidebarItem data)).filter (fun item => decide (0 < item.items.length))))
      (menuShape cat) := by
  induction cat with
  | nil => exact MenuShapeSub.nil
  | cons x cat ih =>
    rw [List.filter_cons]
    by_cases hP : hasMenuAccess data x.title none = true
    · rw [if_pos hP, List.map_cons, List.filter_cons]
      by_cases hQ : decide (0 < (userSidebarItem data x).items.length) = true
      · rw [if_pos hQ]
        simp only [sidebarShape, menuShape, List.map_cons]
        refine MenuShapeSub.keep ?_ ih
        show List.Sublist ((userSidebarItem data x).items.map SidebarSubItem.title)
          (x.items.map MenuSubItem.title)
        unfold userSidebarItem
        rw [List.map_map]
        exact List.Sublist.map _ (List.filter_sublist x.items)
      · rw [if_neg hQ]
        simp only [menuShape, List.map_cons]
        exact MenuShapeSub.skip _ ih
    · rw [if_neg hP]
      simp only [menuShape, List.map_cons]
      exact MenuShapeSub.skip _ ih

/-- C5: for every permission data and loading state, the sidebar filter's
output is a (possibly empty) order-preserving subsequence of the static
menu catalog at the main-menu level and within each kept main menu's
sub-items: it introduces no entry absent from `ALL_MENU_ITEMS` and never
reorders siblings. -/
theorem menu_filter_subsequence (data : Option PermissionsData) (isLoading : Bool) :
    MenuShapeSub (sidebarShape (filteredMenuItems data isLoading)) (menuShape ALL_MENU_ITEMS) := by
  unfold filteredMenuItems
  by_cases hl : isLoading = true
  · rw [if_pos hl]
    exact menuShapeSub_nil _
  · rw [if_neg hl]
    by_cases ha : isAdmin data = true
    · rw [if_pos ha, adminShape]
      exact menuShapeSub_refl _
    · rw [if_neg ha]
      exact userShape_sub data ALL_MENU_ITEMS

end Bookito
